import Mathlib

/-!
Verification of the HeartCoach backend's intake-reconciler and OTP-lifecycle core.

The definitions below are a shallow embedding of the Python source:
`app/services/otp_service.py` (OTP lifecycle) and
`app/routers/api_v1/medicine.py` together with
`app/repositories/medicine_repo.py` and `app/models/medicine.py`
(daily medicine intake).  Times and dates are seconds / day ordinals as `Nat`;
the Redis TTL store is an association list with absolute expiry times;
fallible Python code is embedded in `Except`.
-/

deriving instance DecidableEq for Except

namespace HeartCoach

/-! ### The key-value TTL store (Redis, as used by `otp_service.py`) -/

/-- One entry of the TTL store: key, value, and the absolute time at which the
entry expires (creation time + TTL, in seconds). -/
structure KV where
  key : String
  val : String
  expiry : Nat
deriving DecidableEq, Repr

/-- The TTL store is a list of entries.  `setex` keeps at most one entry per
key (it removes any previous entry for the key), matching Redis `SETEX`
overwrite semantics. -/
abbrev Store := List KV

/-- Redis `GET` at absolute time `now`: the stored value if present and not yet
expired, else `none` (Redis makes an expired key indistinguishable from an
absent one). -/
def storeGet (s : Store) (k : String) (now : Nat) : Option String :=
  match s.find? (fun e => e.key == k) with
  | some e => if now < e.expiry then some e.val else none
  | none => none

/-- Redis `SETEX`: store `v` under `k` with time-to-live `ttl`, superseding any
previous entry for `k`. -/
def storeSetex (s : Store) (k v : String) (ttl now : Nat) : Store :=
  ⟨k, v, now + ttl⟩ :: s.filter (fun e => e.key != k)

/-- Redis `DELETE`. -/
def storeDel (s : Store) (k : String) : Store :=
  s.filter (fun e => e.key != k)

/-- Number of entries stored under key `k`. -/
def countKey (s : Store) (k : String) : Nat :=
  (s.filter (fun e => e.key == k)).length

/-! ### `OTPService` (`app/services/otp_service.py`) -/

/-- `OTP_EXPIRES_SECONDS = 18000` in `otp_service.py`; it is both the TTL of
the stored secret and the TOTP interval in the used code paths. -/
def OTP_EXPIRES_SECONDS : Nat := 18000

/-- The service state: `redis` is `none` when the service was constructed
without a Redis client and no `REDIS_URL` is configured (`self.redis = None`);
`mem_store` is the in-memory fallback dictionary `self._mem_store`
(contact ↦ (otp, absolute expiry time)). -/
structure OTPService where
  redis : Option Store
  mem_store : List (String × String × Nat)
deriving DecidableEq, Repr

/-- The single Python error that matters to the embedded paths: the
`AttributeError` raised by `self.redis.get`/`self.redis.setex` when
`self.redis` is `None`. -/
inductive PyErr where
  | attrErrorNone
deriving DecidableEq, Repr

/-- The Redis key used for OTP secrets throughout `otp_service.py`:
the f-string `otp_secret:{contact}`. -/
def secret_key (contact : String) : String :=
  "otp_secret:" ++ contact

/-- The distinct key used by the unused fallback helpers `store_otp` /
`get_otp` / `delete_otp`: `self._otp_key(contact)` with
`OTP_PREFIX = "heartcoach:otp:"`.  Note it differs from `secret_key`. -/
def otp_key (contact : String) : String :=
  "heartcoach:otp:" ++ contact

/-- pyotp's `TOTP(secret, interval).now()` at absolute time `t` is a
deterministic function of the secret and the time bucket `t / interval` alone
(a truncated HMAC of the bucket counter, keyed by the secret).  The HMAC lives
in the external pyotp library; it is modelled by a pairing of secret and
bucket, which preserves the two properties the service relies on: the code is
deterministic, and (for a fixed secret) distinct buckets give distinct codes —
true of the real HOTP for generic secrets, e.g. for the base32 secret
GEZDGNBVGY3TQOJQ the real 6-digit codes at buckets 0 and 1 are 891490 and
263420. -/
def totpCode (secret : String) (bucket : Nat) : String :=
  secret ++ ":" ++ toString bucket

/-- The TOTP time bucket of absolute time `t` for the interval used by the
service. -/
def bucketOf (t : Nat) : Nat :=
  t / OTP_EXPIRES_SECONDS

/-- `self.redis.get(k)`: raises `AttributeError` when `self.redis` is `None`,
else returns the (possibly absent) live value. -/
def redis_get (svc : OTPService) (k : String) (now : Nat) :
    Except PyErr (Option String) :=
  match svc.redis with
  | none => .error .attrErrorNone
  | some st => .ok (storeGet st k now)

/-- `OTPService._generate_secret_and_otp`: draw a fresh random secret
(`fresh`, supplied as a parameter since randomness is external), compute the
current-bucket TOTP code, and `setex` the secret under `otp_secret:{contact}`
with TTL `OTP_EXPIRES_SECONDS`.  Accessing `.setex` on a `None` redis raises
`AttributeError`. -/
def generate_secret_and_otp (svc : OTPService) (contact fresh : String)
    (now : Nat) : Except PyErr (String × OTPService) :=
  match svc.redis with
  | none => .error .attrErrorNone
  | some st =>
      let otp := totpCode fresh (bucketOf now)
      .ok (otp, { svc with
        redis := some (storeSetex st (secret_key contact) fresh
          OTP_EXPIRES_SECONDS now) })

/-- `OTPService.generate_and_send` (the `requestCode` entry point): generate
and store a fresh secret, then dispatch the code via `_send`.  `_send` catches
all of its own exceptions and returns a boolean (`send_ok`, supplied as a
parameter since the email/SMS transports are external); the surrounding
`try/except` of `generate_and_send` therefore only catches exceptions of the
generation step, in which case it returns `False` with the state unchanged and
nothing dispatched.  The result triple is (returned boolean, code handed to
`_send` if any, resulting state). -/
def generate_and_send (svc : OTPService) (contact fresh : String) (now : Nat)
    (send_ok : Bool) : Bool × Option String × OTPService :=
  match generate_secret_and_otp svc contact fresh now with
  | .error _ => (false, none, svc)
  | .ok (otp, svc₁) => (send_ok, some otp, svc₁)

/-- `OTPService.fetch_and_send` (the `resendCode` entry point): read the
stored secret; if a (truthy) secret is live, recompute the current-bucket code
from it without writing anything; otherwise generate and store a fresh secret
exactly as `generate_and_send` does.  Then dispatch via `_send`.  There is no
`try/except` here, so the `AttributeError` of a `None` redis propagates.  The
result triple is (returned boolean, code handed to `_send`, resulting
state). -/
def fetch_and_send (svc : OTPService) (contact fresh : String) (now : Nat)
    (send_ok : Bool) : Except PyErr (Bool × String × OTPService) :=
  match redis_get svc (secret_key contact) now with
  | .error e => .error e
  | .ok (some s) =>
      if s.isEmpty then
        (generate_secret_and_otp svc contact fresh now).map
          (fun p => (send_ok, p.1, p.2))
      else
        .ok (send_ok, totpCode s (bucketOf now), svc)
  | .ok none =>
      (generate_secret_and_otp svc contact fresh now).map
        (fun p => (send_ok, p.1, p.2))

/-- `OTPService.verify` (the `verifyCode` entry point): read the stored
secret; `if not secret: return False`; otherwise compare the submitted code
against the current-bucket TOTP code of the stored secret (pyotp
`totp.verify(otp)` with its default `valid_window=0`).  The method performs no
write: the returned state is the input state.  A `None` redis raises
`AttributeError` (no `try/except`). -/
def verify (svc : OTPService) (contact otp : String) (now : Nat) :
    Except PyErr (Bool × OTPService) :=
  match redis_get svc (secret_key contact) now with
  | .error e => .error e
  | .ok none => .ok (false, svc)
  | .ok (some s) =>
      if s.isEmpty then .ok (false, svc)
      else .ok (decide (otp = totpCode s (bucketOf now)), svc)

/-- `OTPService.delete_otp`: deletes under `otp_key` (not `secret_key`!) when
redis is present, else pops the fallback dictionary.  Never called anywhere in
the repository. -/
def delete_otp (svc : OTPService) (contact : String) : OTPService :=
  match svc.redis with
  | some st => { svc with redis := some (storeDel st (otp_key contact)) }
  | none => { svc with
      mem_store := svc.mem_store.filter (fun e => e.1 != contact) }

/-! ### Concrete OTP inputs used by witnesses and counterexamples -/

/-- A sample email contact. -/
def contactA : String := "a@b.com"

/-- A sample submitted code. -/
def code000 : String := "000000"

/-- A sample generated base32 secret. -/
def secretG : String := "GEZDGNBVGY3TQOJQ"

/-- A second sample secret, for fresh-generation parameters. -/
def secretFresh : String := "FRESHSECRETBASE"

/-- A service whose Redis store holds a live secret for `contactA`
(stored at time 0, so live until `OTP_EXPIRES_SECONDS`). -/
def svcWithSecret : OTPService :=
  ⟨some [⟨secret_key contactA, secretG, OTP_EXPIRES_SECONDS⟩], []⟩

/-- The code `verify` accepts for `svcWithSecret` at any time in bucket 0. -/
def codeG0 : String := totpCode secretG 0

/-- A service with an empty Redis store. -/
def svcEmpty : OTPService := ⟨some [], []⟩

/-- The store produced by `generate_and_send svcEmpty contactA secretG 17999`:
the secret is stored at time 17999 with TTL 18000, hence expiry 35999. -/
def storeAfterRequest : Store := [⟨secret_key contactA, secretG, 35999⟩]

/-- The service state after that request. -/
def svcAfterRequest : OTPService := ⟨some storeAfterRequest, []⟩

/-- A service constructed without Redis (`self.redis = None`), with a
non-empty in-memory fallback dictionary, to exhibit that the fallback is
neither read nor written by the public operations. -/
def svcNoRedis : OTPService := ⟨none, [(contactA, code000, 999999)]⟩

/-! ### OTP store helper lemmas -/

theorem filter_key_setex_self (st : Store) (k v : String) (ttl now : Nat) :
    (storeSetex st k v ttl now).filter (fun e => e.key == k) = [⟨k, v, now + ttl⟩] := by
  simp only [storeSetex, List.filter_cons]
  simp only [beq_self_eq_true, if_pos, List.filter_filter]
  have : ∀ e : KV, ((e.key != k) && (e.key == k)) = false := by
    intro e
    cases h : (e.key == k) <;> simp [bne, h]
  simp [this]

theorem countKey_setex_self (st : Store) (k v : String) (ttl now : Nat) :
    countKey (storeSetex st k v ttl now) k = 1 := by
  simp [countKey, filter_key_setex_self]

theorem storeGet_setex_self (st : Store) (k v : String) (ttl now t : Nat)
    (ht : t < now + ttl) :
    storeGet (storeSetex st k v ttl now) k t = some v := by
  simp [storeGet, storeSetex, List.find?_cons, ht]

/-! ### C6 -/

/-- C6: for a contact with no live secret in the store (never issued or
expired — `storeGet` returns `none` in both cases), `verify` returns the plain
boolean `false`, not a raised error, regardless of the submitted code. -/
theorem verify_no_secret_false (svc : OTPService) (st : Store)
    (contact otp : String) (now : Nat)
    (hr : svc.redis = some st)
    (h : storeGet st (secret_key contact) now = none) :
    verify svc contact otp now = .ok (false, svc) := by
  simp [verify, redis_get, hr, h]

/-- Witness for C6: a never-issued contact with an arbitrary submitted code is
rejected with `false`. -/
theorem verify_no_secret_false_witness :
    verify svcEmpty contactA code000 0 = .ok (false, svcEmpty) :=
  verify_no_secret_false svcEmpty [] contactA code000 0 rfl rfl

/-! ### C10 -/

/-- C10: when the service is constructed without a Redis client and no
REDIS_URL is configured (`redis = none`), none of the public OTP operations
touches the in-memory fallback store: `generate_and_send` returns `false`
with nothing dispatched and the state (including `mem_store`) unchanged (the
internal `AttributeError` is swallowed by its catch-all), while
`fetch_and_send` and `verify` raise the `AttributeError` instead of falling
back.  The conclusions are independent of `svc.mem_store`, which is
universally quantified via `svc`. -/
theorem no_redis_skips_memstore (svc : OTPService)
    (contact fresh otp : String) (now : Nat) (send_ok : Bool)
    (h : svc.redis = none) :
    generate_and_send svc contact fresh now send_ok = (false, none, svc) ∧
    fetch_and_send svc contact fresh now send_ok = .error .attrErrorNone ∧
    verify svc contact otp now = .error .attrErrorNone := by
  refine ⟨?_, ?_, ?_⟩ <;>
    simp [generate_and_send, fetch_and_send, verify, generate_secret_and_otp,
      redis_get, h]

/-- Witness for C10: a redis-less service with a non-empty fallback
dictionary; the public operations fail without reading or writing it. -/
theorem no_redis_skips_memstore_witness :
    generate_and_send svcNoRedis contactA secretG 0 true
      = (false, none, svcNoRedis) ∧
    fetch_and_send svcNoRedis contactA secretG 0 true
      = .error .attrErrorNone ∧
    verify svcNoRedis contactA code000 0 = .error .attrErrorNone :=
  no_redis_skips_memstore svcNoRedis contactA secretG code000 0 true rfl

/-! ### C2 -/

/-- Counterexample to C2: `verify` never invalidates the stored secret (no
code path calls `delete_otp` or any Redis delete — and `delete_otp` targets
the key `heartcoach:otp:{contact}`, not `otp_secret:{contact}`, anyway).  For
a live secret and the correct code, `verify` returns `true` and leaves the
state exactly as it was, so the immediately repeated call — the very same
expression, since the state is unchanged — again returns `true`, not
`false`. -/
theorem verify_reuse_counterexample :
    verify svcWithSecret contactA codeG0 0 = .ok (true, svcWithSecret) ∧
    (verify svcWithSecret contactA codeG0 0).map Prod.fst ≠ .ok false := by
  decide

/-- C2 amended: each issued code is *not* accepted at most once.  A successful
`verify` leaves the service state unchanged (the stored secret stays live
until its TTL expiry), so an immediately repeated `verify` with the same
still-unexpired code returns `true` again (window-valid / replayable, the
second of the two variants noted in the spec's design notes). -/
theorem verify_not_consuming (svc svc₁ : OTPService) (contact otp : String)
    (now : Nat)
    (h : verify svc contact otp now = .ok (true, svc₁)) :
    svc₁ = svc ∧ verify svc₁ contact otp now = .ok (true, svc) := by
  rcases hred : redis_get svc (secret_key contact) now with e | os
  · simp [verify, hred] at h
  · rcases os with _ | s
    · simp [verify, hred] at h
    · by_cases hs : s.isEmpty
      · simp [verify, hred, hs] at h
      · simp only [verify, hred, hs, Bool.false_eq_true, if_false,
          Except.ok.injEq, Prod.mk.injEq, decide_eq_true_eq] at h
        obtain ⟨hb, rfl⟩ := h
        exact ⟨rfl, by simp [verify, hred, hs, hb]⟩

/-- Witness for C2's amended statement at the concrete replayable service. -/
theorem verify_not_consuming_witness :
    svcWithSecret = svcWithSecret ∧
    verify svcWithSecret contactA codeG0 0 = .ok (true, svcWithSecret) :=
  verify_not_consuming svcWithSecret svcWithSecret contactA codeG0 0
    (by decide)

/-! ### C7 -/

/-- C7: at most one live secret per contact.  `generate_secret_and_otp` (the
store step of `requestCode`) writes the fresh secret under the single key
`otp_secret:{contact}` with `setex`, which removes any prior entry for that
key.  Afterwards exactly one entry is stored for the key, any in-window read
returns the new secret, and `verify` evaluates a submitted code only against
the new secret: it returns the comparison with the new secret's current-bucket
code, and rejects any code differing from it — the superseded secret plays no
further role. -/
theorem request_supersedes_old_secret (svc : OTPService) (st : Store)
    (contact fresh otp : String) (now t : Nat)
    (hr : svc.redis = some st)
    (ht : t < now + OTP_EXPIRES_SECONDS)
    (hne : fresh.isEmpty = false) :
    generate_secret_and_otp svc contact fresh now
      = .ok (totpCode fresh (bucketOf now),
          { svc with redis := some (storeSetex st (secret_key contact) fresh
              OTP_EXPIRES_SECONDS now) }) ∧
    countKey (storeSetex st (secret_key contact) fresh OTP_EXPIRES_SECONDS now)
        (secret_key contact) = 1 ∧
    storeGet (storeSetex st (secret_key contact) fresh OTP_EXPIRES_SECONDS now)
        (secret_key contact) t = some fresh ∧
    verify { svc with redis := some (storeSetex st (secret_key contact) fresh
          OTP_EXPIRES_SECONDS now) } contact otp t
      = .ok (decide (otp = totpCode fresh (bucketOf t)),
          { svc with redis := some (storeSetex st (secret_key contact) fresh
              OTP_EXPIRES_SECONDS now) }) ∧
    (otp ≠ totpCode fresh (bucketOf t) →
      verify { svc with redis := some (storeSetex st (secret_key contact) fresh
            OTP_EXPIRES_SECONDS now) } contact otp t
        = .ok (false,
            { svc with redis := some (storeSetex st (secret_key contact) fresh
                OTP_EXPIRES_SECONDS now) })) := by
  have hget := storeGet_setex_self st (secret_key contact) fresh
    OTP_EXPIRES_SECONDS now t ht
  refine ⟨by simp [generate_secret_and_otp, hr],
    countKey_setex_self st (secret_key contact) fresh OTP_EXPIRES_SECONDS now,
    hget, ?_, ?_⟩
  · simp [verify, redis_get, hget, hne]
  · intro hot
    simp [verify, redis_get, hget, hne, hot]

/-- Witness for C7: storing `secretG` over an empty store at time 0; a wrong
code is rejected at time 1 against the new secret. -/
theorem request_supersedes_old_secret_witness :
    generate_secret_and_otp svcEmpty contactA secretG 0
      = .ok (totpCode secretG (bucketOf 0),
          { svcEmpty with redis := some (storeSetex [] (secret_key contactA)
              secretG OTP_EXPIRES_SECONDS 0) }) ∧
    countKey (storeSetex [] (secret_key contactA) secretG OTP_EXPIRES_SECONDS 0)
        (secret_key contactA) = 1 ∧
    storeGet (storeSetex [] (secret_key contactA) secretG OTP_EXPIRES_SECONDS 0)
        (secret_key contactA) 1 = some secretG ∧
    verify { svcEmpty with redis := some (storeSetex [] (secret_key contactA)
          secretG OTP_EXPIRES_SECONDS 0) } contactA code000 1
      = .ok (decide (code000 = totpCode secretG (bucketOf 1)),
          { svcEmpty with redis := some (storeSetex [] (secret_key contactA)
              secretG OTP_EXPIRES_SECONDS 0) }) ∧
    (code000 ≠ totpCode secretG (bucketOf 1) →
      verify { svcEmpty with redis := some (storeSetex [] (secret_key contactA)
            secretG OTP_EXPIRES_SECONDS 0) } contactA code000 1
        = .ok (false,
            { svcEmpty with redis := some (storeSetex [] (secret_key contactA)
                secretG OTP_EXPIRES_SECONDS 0) })) :=
  request_supersedes_old_secret svcEmpty [] contactA secretG code000 0 1
    (by decide) (by decide) (by decide)

/-! ### C5 -/

/-- Counterexample to C5: `resendCode` does *not* always dispatch the same
code as the original request.  Request at `t = 17999` stores `secretG` (live
until 35999) and dispatches the bucket-0 code; resend at `t = 18000` — well
before expiry, with the secret still live and unrotated — recomputes the code
for the *current* bucket 1 and dispatches a different code (for the real pyotp
derivation the two codes are 891490 and 263420). -/
theorem resend_code_differs_counterexample :
    generate_and_send svcEmpty contactA secretG 17999 true
      = (true, some (totpCode secretG 0), svcAfterRequest) ∧
    storeGet storeAfterRequest (secret_key contactA) 18000 = some secretG ∧
    fetch_and_send svcAfterRequest contactA secretFresh 18000 true
      = .ok (true, totpCode secretG 1, svcAfterRequest) ∧
    totpCode secretG 1 ≠ totpCode secretG 0 := by
  decide

/-- C5 amended: for a contact with a live (truthy) secret, `fetch_and_send`
recomputes the code for the *current time bucket* from the stored secret
without rotating it (the state is returned unchanged), and that dispatched
code satisfies `verify` at any time in the same bucket at which the secret is
still live — it equals the originally dispatched code only when request and
resend fall in the same bucket.  For a contact with no live secret,
`fetch_and_send` generates and stores a fresh secret exactly as
`generate_and_send` (requestCode) does: both delegate to
`generate_secret_and_otp` and produce the same stored state and code. -/
theorem fetch_and_send_no_rotation (svc : OTPService) (st : Store)
    (contact fresh secret : String) (now t : Nat) (send_ok : Bool)
    (hr : svc.redis = some st) :
    (storeGet st (secret_key contact) now = some secret →
      secret.isEmpty = false →
      fetch_and_send svc contact fresh now send_ok
        = .ok (send_ok, totpCode secret (bucketOf now), svc) ∧
      (bucketOf t = bucketOf now →
        storeGet st (secret_key contact) t = some secret →
        verify svc contact (totpCode secret (bucketOf now)) t
          = .ok (true, svc))) ∧
    (storeGet st (secret_key contact) now = none →
      fetch_and_send svc contact fresh now send_ok
        = .ok (send_ok, totpCode fresh (bucketOf now),
            { svc with redis := some (storeSetex st (secret_key contact) fresh
                OTP_EXPIRES_SECONDS now) }) ∧
      generate_and_send svc contact fresh now send_ok
        = (send_ok, some (totpCode fresh (bucketOf now)),
            { svc with redis := some (storeSetex st (secret_key contact) fresh
                OTP_EXPIRES_SECONDS now) })) := by
  constructor
  · intro hget hne
    refine ⟨by simp [fetch_and_send, redis_get, hr, hget, hne], ?_⟩
    intro hb hget'
    have hse : secret.isEmpty = false := hne
    simp [verify, redis_get, hr, hget', hse, hb]
  · intro hget
    constructor <;>
      simp [fetch_and_send, generate_and_send, generate_secret_and_otp,
        redis_get, Except.map, hr, hget]

/-- Witness for C5's amended statement: the live-secret branch at the concrete
post-request state, resent and verified inside bucket 1. -/
theorem fetch_and_send_no_rotation_witness :
    (storeGet storeAfterRequest (secret_key contactA) 18000 = some secretG →
      secretG.isEmpty = false →
      fetch_and_send svcAfterRequest contactA secretFresh 18000 true
        = .ok (true, totpCode secretG (bucketOf 18000), svcAfterRequest) ∧
      (bucketOf 18001 = bucketOf 18000 →
        storeGet storeAfterRequest (secret_key contactA) 18001 = some secretG →
        verify svcAfterRequest contactA (totpCode secretG (bucketOf 18000))
          18001 = .ok (true, svcAfterRequest))) ∧
    (storeGet storeAfterRequest (secret_key contactA) 18000 = none →
      fetch_and_send svcAfterRequest contactA secretFresh 18000 true
        = .ok (true, totpCode secretFresh (bucketOf 18000),
            { svcAfterRequest with redis := some (storeSetex storeAfterRequest
                (secret_key contactA) secretFresh OTP_EXPIRES_SECONDS 18000) }) ∧
      generate_and_send svcAfterRequest contactA secretFresh 18000 true
        = (true, some (totpCode secretFresh (bucketOf 18000)),
            { svcAfterRequest with redis := some (storeSetex storeAfterRequest
                (secret_key contactA) secretFresh OTP_EXPIRES_SECONDS
                18000) })) :=
  fetch_and_send_no_rotation svcAfterRequest storeAfterRequest contactA
    secretFresh secretG 18000 18001 true rfl

/-! ### Data model of the intake reconciler (`app/models/medicine.py`) -/

/-- `IntakeStatus` enum. -/
inductive IntakeStatus where
  | pending
  | taken
  | missed
  | delayed
deriving DecidableEq, Repr

/-- `Medicine` row (the fields read by the embedded paths; ids, dates and
times are `Nat`). -/
structure Medicine where
  id : Nat
  user_id : Nat
  start_date : Option Nat
  end_date : Option Nat
deriving DecidableEq, Repr

/-- `MedicineSchedule` row. -/
structure MedicineSchedule where
  id : Nat
  medicine_id : Nat
  user_id : Nat
  time_of_day : Nat
deriving DecidableEq, Repr

/-- `DailyMedicineIntake` row. -/
structure DailyMedicineIntake where
  id : Nat
  user_id : Nat
  schedule_id : Nat
  intake_date : Nat
  status : IntakeStatus
  status_changed_at : Nat
  scheduled_time : Nat
  note : Option String
deriving DecidableEq, Repr

/-- The relational store, as the three tables the embedded paths touch. -/
structure DB where
  medicines : List Medicine
  schedules : List MedicineSchedule
  intakes : List DailyMedicineIntake
deriving DecidableEq, Repr

/-- `MedicineIntakeCreate` request payload (`app/schemas/medicine.py`): the
`status` field is typed `IntakeStatus` with no further restriction, so every
enum value — including `pending` — is accepted by validation. -/
structure MedicineIntakeCreate where
  status : IntakeStatus
  schedule_id : Option Nat
  intake_date : Option Nat
  note : Option String
deriving DecidableEq, Repr

/-- Errors of `mark_medicine_status`: `HTTPException(status_code, detail)`
raised by the handler itself, or the database `IntegrityError` raised at
commit when an insert violates the unique constraint
`uq_daily_intake_schedule_date` (the handler has no `try/except`, so it
propagates). -/
inductive MarkErr where
  | http (code : Nat) (detail : String)
  | uniqueViolation
deriving DecidableEq, Repr

/-- Detail string of the 401 error. -/
def msgUnauthorized : String := "Unauthorized"

/-- Detail string of the medicine 404 error. -/
def msgMedicineNotFound : String := "Medicine not found"

/-- Detail string of the missing-schedule-id 400 error. -/
def msgScheduleRequired : String := "schedule_id is required"

/-- Detail string of the schedule 404 error. -/
def msgScheduleNotFound : String := "Schedule not found for this medicine"

/-- Detail string of the before-start-date 400 error. -/
def msgBeforeStart : String := "Intake date is before medicine start date"

/-- Detail string of the after-end-date 400 error. -/
def msgAfterEnd : String := "Intake date is after medicine end date"

/-- The window test `medicine.start_date and intake_date < medicine.start_date`
(a `None` start date skips the check). -/
def beforeStart (med : Medicine) (d : Nat) : Bool :=
  match med.start_date with
  | some sd => decide (d < sd)
  | none => false

/-- The window test `medicine.end_date and intake_date > medicine.end_date`
(a `None` end date skips the check). -/
def afterEnd (med : Medicine) (d : Nat) : Bool :=
  match med.end_date with
  | some ed => decide (ed < d)
  | none => false

/-! ### `mark_medicine_status` (`app/routers/api_v1/medicine.py`)

The handler is embedded as explicit state passing: it returns the resulting
`DB` together with either the committed row or the raised error; every error
branch returns the input `DB` unchanged, mirroring that the source raises
before any write (and that a failed commit is rolled back). -/

/-- Steps 1–3 of the handler: the medicine ownership lookup
(`scalar_one_or_none` over id + user), the `schedule_id` presence check, the
schedule ownership lookup (id + user + medicine), the date defaulting
(`payload.intake_date or date.today()`), and the start/end window checks — in
source order, before any write.  On success it yields the resolved medicine,
schedule and intake date.  (Under primary-key uniqueness `find?` coincides
with `scalar_one_or_none`.) -/
def markValidate (db : DB) (u : Nat) (medicine_id : Nat)
    (payload : MedicineIntakeCreate) (today : Nat) :
    Except MarkErr (Medicine × MedicineSchedule × Nat) :=
  match db.medicines.find? (fun m => m.id == medicine_id && m.user_id == u) with
  | none => .error (.http 404 msgMedicineNotFound)
  | some med =>
    match payload.schedule_id with
    | none => .error (.http 400 msgScheduleRequired)
    | some sid =>
      match db.schedules.find? (fun s =>
          s.id == sid && s.user_id == u && s.medicine_id == med.id) with
      | none => .error (.http 404 msgScheduleNotFound)
      | some sched =>
        let d := payload.intake_date.getD today
        if beforeStart med d then .error (.http 400 msgBeforeStart)
        else if afterEnd med d then .error (.http 400 msgAfterEnd)
        else .ok (med, sched, d)

/-- The read phase of the upsert: `select(DailyMedicineIntake).where(user_id,
schedule_id, intake_date)` via `scalar_one_or_none`. -/
def intakeLookup (db : DB) (u sid d : Nat) : Option DailyMedicineIntake :=
  db.intakes.find? (fun i =>
    i.user_id == u && i.schedule_id == sid && i.intake_date == d)

/-- The in-place update applied to the found row: only `status`,
`status_changed_at` and `note` are overwritten. -/
def applyUpd (payload : MedicineIntakeCreate) (now : Nat)
    (i : DailyMedicineIntake) : DailyMedicineIntake :=
  { i with
    status := payload.status
    status_changed_at := now
    note := payload.note }

/-- The fresh row built in the insert branch: id from the column default
(`fresh_id`, external randomness), `scheduled_time` snapshotted from the
schedule, `status_changed_at = now`. -/
def mkRow (fresh_id u : Nat) (sched : MedicineSchedule) (d : Nat)
    (payload : MedicineIntakeCreate) (now : Nat) : DailyMedicineIntake :=
  ⟨fresh_id, u, sched.id, d, payload.status, now, sched.time_of_day,
    payload.note⟩

/-- The effect of the update commit on an arbitrary stored row: the row the
ORM session tracked — the unique one matching `(user, schedule, date)` — gets
the three overwritten fields; every other row is untouched. -/
def updFn (u sid d : Nat) (payload : MedicineIntakeCreate) (now : Nat)
    (i : DailyMedicineIntake) : DailyMedicineIntake :=
  if i.user_id == u && i.schedule_id == sid && i.intake_date == d
  then applyUpd payload now i else i

/-- The write phase of the upsert, given the row found by the read phase: if
none was found, `db.add` a fresh row and commit — the commit enforces the
unique constraint on `(schedule_id, intake_date)` and raises on violation,
rolling the insert back; if a row was found, overwrite its `status`, `note`
and `status_changed_at` in place and commit. -/
def intakeWrite (db : DB) (found : Option DailyMedicineIntake) (u : Nat)
    (sched : MedicineSchedule) (d : Nat) (payload : MedicineIntakeCreate)
    (now fresh_id : Nat) : DB × Except MarkErr DailyMedicineIntake :=
  match found with
  | none =>
    let row := mkRow fresh_id u sched d payload now
    if db.intakes.any (fun i => i.schedule_id == sched.id && i.intake_date == d)
    then (db, .error .uniqueViolation)
    else ({ db with intakes := db.intakes ++ [row] }, .ok row)
  | some old =>
    ({ db with intakes := db.intakes.map (updFn u sched.id d payload now) },
      .ok (applyUpd payload now old))

/-- `mark_medicine_status`: authentication check, validation, then the
read-then-write upsert for `(user, schedule, intake_date)`. -/
def mark_medicine_status (db : DB) (user_id : Option Nat) (medicine_id : Nat)
    (payload : MedicineIntakeCreate) (today now fresh_id : Nat) :
    DB × Except MarkErr DailyMedicineIntake :=
  match user_id with
  | none => (db, .error (.http 401 msgUnauthorized))
  | some u =>
    match markValidate db u medicine_id payload today with
    | .error e => (db, .error e)
    | .ok (_med, sched, d) =>
      intakeWrite db (intakeLookup db u sched.id d) u sched d payload now
        fresh_id

/-! ### `MedicineRepository.get_medicines`
(`app/repositories/medicine_repo.py`) -/

/-- The schedules of a medicine via the `Medicine.schedules` relationship. -/
def schedulesOf (db : DB) (m : Medicine) : List MedicineSchedule :=
  db.schedules.filter (fun s => s.medicine_id == m.id)

/-- The python dict comprehension `{i.schedule_id: i for i in intakes}` keeps,
for each key, the last list element with that key. -/
def dictLast (intakes : List DailyMedicineIntake) (sid : Nat) :
    Option DailyMedicineIntake :=
  (intakes.filter (fun i => i.schedule_id == sid)).getLast?

/-- `MedicineRepository.get_medicines(user_id)`: loads the user's medicines
with their schedules, loads today's intake rows for those schedules, and
attaches to each schedule the intake's status if a row exists, else
`PENDING`.  The source path executes only SELECTs (the attachment is a
`setattr` on in-memory objects, not a column write), so the embedding is a
pure function of the store: no `DailyMedicineIntake` row is created or
modified.  The source's early returns (no medicines / no schedules) return
the same value as the general formula — every schedule list is then empty —
so they are not special-cased. -/
def get_medicines (db : DB) (u today : Nat) :
    List (Medicine × List (MedicineSchedule × IntakeStatus)) :=
  let meds := db.medicines.filter (fun m => m.user_id == u)
  let schedule_ids := meds.flatMap (fun m => (schedulesOf db m).map (fun s => s.id))
  let intakes := db.intakes.filter (fun i =>
    i.user_id == u && schedule_ids.contains i.schedule_id
      && i.intake_date == today)
  meds.map (fun m => (m, (schedulesOf db m).map (fun s =>
    (s, match dictLast intakes s.id with
        | some i => i.status
        | none => IntakeStatus.pending))))

/-- The status the spec ascribes to a schedule for a given date: the status of
the existing `DailyMedicineIntake` row for `(user, schedule, date)` when one
exists, else `PENDING`. -/
def todayStatus (db : DB) (u sid today : Nat) : IntakeStatus :=
  match intakeLookup db u sid today with
  | some i => i.status
  | none => IntakeStatus.pending

/-! ### Invariant and helper notions for the intake claims -/

/-- The rows stored for one `(schedule_id, intake_date)` key. -/
def rowsFor (db : DB) (sid d : Nat) : List DailyMedicineIntake :=
  db.intakes.filter (fun i => i.schedule_id == sid && i.intake_date == d)

/-- The database-enforced unique constraint `uq_daily_intake_schedule_date`:
at most one row per `(schedule_id, intake_date)`. -/
def IntakeUnique (db : DB) : Prop :=
  ∀ sid d, (rowsFor db sid d).length ≤ 1

/-! ### Concrete intake fixtures used by witnesses and counterexamples -/

/-- A medicine of user 7 with window `[10, 20]` (the spec's
start 2025-01-10 / end 2025-01-20 example, as day ordinals). -/
def medA : Medicine := ⟨1, 7, some 10, some 20⟩

/-- A schedule of `medA` at time-of-day 800. -/
def schedA : MedicineSchedule := ⟨2, 1, 7, 800⟩

/-- A store holding `medA` and `schedA` and no intake rows. -/
def dbMed : DB := ⟨[medA], [schedA], []⟩

/-- A TAKEN payload for `schedA` dated inside the window (day 15). -/
def payloadTaken : MedicineIntakeCreate := ⟨.taken, some 2, some 15, none⟩

/-- A PENDING payload for `schedA` dated inside the window. -/
def payloadPending : MedicineIntakeCreate := ⟨.pending, some 2, some 15, none⟩

/-- A TAKEN payload dated before the window (day 9, the spec's 2025-01-09). -/
def payloadEarly : MedicineIntakeCreate := ⟨.taken, some 2, some 9, none⟩

/-- The row inserted by the first concurrent write of the C9 scenario. -/
def rowIns : DailyMedicineIntake := mkRow 50 7 schedA 15 payloadTaken 100

/-- The store after that first write. -/
def dbAfterIns : DB := ⟨[medA], [schedA], [rowIns]⟩

/-! ### C3 -/

/-- C3: when the requested date falls before the medicine's start date or
after its end date (each check skipped for a `None` bound), the call fails
with the 400 InvalidRequest of the violated bound and the store is returned
unchanged: the ownership lookups and the window checks all precede the upsert,
so a rejected call performs no write. -/
theorem window_reject_leaves_db_unchanged (db : DB)
    (u medicine_id : Nat) (payload : MedicineIntakeCreate)
    (today now fresh_id : Nat) (med : Medicine) (sched : MedicineSchedule)
    (sid : Nat)
    (hmed : db.medicines.find?
      (fun m => m.id == medicine_id && m.user_id == u) = some med)
    (hsid : payload.schedule_id = some sid)
    (hsched : db.schedules.find? (fun s =>
      s.id == sid && s.user_id == u && s.medicine_id == med.id) = some sched)
    (hwin : beforeStart med (payload.intake_date.getD today) = true ∨
      afterEnd med (payload.intake_date.getD today) = true) :
    mark_medicine_status db (some u) medicine_id payload today now fresh_id
      = (db, .error (.http 400
          (if beforeStart med (payload.intake_date.getD today)
           then msgBeforeStart else msgAfterEnd))) := by
  rcases hwin with hb | ha
  · simp [mark_medicine_status, markValidate, hmed, hsid, hsched, hb]
  · by_cases hb : beforeStart med (payload.intake_date.getD today) = true
    · simp [mark_medicine_status, markValidate, hmed, hsid, hsched, hb]
    · simp only [Bool.not_eq_true] at hb
      simp [mark_medicine_status, markValidate, hmed, hsid, hsched, hb, ha]

/-- Witness for C3: the spec's own example — window `[10, 20]`, requested date
9 — is rejected with the before-start InvalidRequest and the store (holding no
intake rows before the call) is unchanged. -/
theorem window_reject_leaves_db_unchanged_witness :
    mark_medicine_status dbMed (some 7) 1 payloadEarly 15 100 50
      = (dbMed, .error (.http 400
          (if beforeStart medA (payloadEarly.intake_date.getD 15)
           then msgBeforeStart else msgAfterEnd))) :=
  window_reject_leaves_db_unchanged dbMed 7 1 payloadEarly 15 100 50 medA
    schedA 2 (by decide) (by decide) (by decide) (Or.inl (by decide))

/-! ### C8 -/

/-- Counterexample to C8: the accepted statuses are not exactly
{TAKEN, MISSED, DELAYED}.  The `MedicineIntakeCreate.status` field is typed
`IntakeStatus` with no restriction and the handler applies no status check,
so an explicit PENDING passes validation on the normal path and is stored as
the row's status. -/
theorem pending_accepted_counterexample :
    mark_medicine_status dbMed (some 7) 1 payloadPending 15 100 50
      = (⟨[medA], [schedA], [⟨50, 7, 2, 15, .pending, 100, 800, none⟩]⟩,
         .ok ⟨50, 7, 2, 15, .pending, 100, 800, none⟩) := by
  decide

/-- C8 amended: the call accepts every `IntakeStatus` value — PENDING
included — and stores the submitted status verbatim: whenever the call
succeeds, the returned row's status is exactly `payload.status`.  PENDING
remains the derived default for absent rows, but nothing prevents a caller
from setting it explicitly. -/
theorem mark_stores_submitted_status (db db₁ : DB) (u medicine_id : Nat)
    (payload : MedicineIntakeCreate) (today now fresh_id : Nat)
    (r : DailyMedicineIntake)
    (h : mark_medicine_status db (some u) medicine_id payload today now fresh_id
      = (db₁, .ok r)) :
    r.status = payload.status ∧ r.note = payload.note ∧
    r.status_changed_at = now := by
  rcases hv : markValidate db u medicine_id payload today with e | ⟨med, sched, d⟩
  · simp [mark_medicine_status, hv] at h
  · simp only [mark_medicine_status, hv] at h
    rcases hl : intakeLookup db u sched.id d with _ | old <;> rw [hl] at h
    · by_cases hany : db.intakes.any
        (fun i => i.schedule_id == sched.id && i.intake_date == d) = true
      · simp [intakeWrite, hany] at h
      · simp only [Bool.not_eq_true] at hany
        simp only [intakeWrite, hany, Bool.false_eq_true, if_false,
          Prod.mk.injEq, Except.ok.injEq] at h
        obtain ⟨-, rfl⟩ := h
        exact ⟨rfl, rfl, rfl⟩
    · simp only [intakeWrite, Prod.mk.injEq, Except.ok.injEq] at h
      obtain ⟨-, rfl⟩ := h
      exact ⟨rfl, rfl, rfl⟩

/-- Witness for C8's amended statement: the successful PENDING call stores
status PENDING, note `none`, timestamp 100. -/
theorem mark_stores_submitted_status_witness :
    (⟨50, 7, 2, 15, .pending, 100, 800, none⟩ :
        DailyMedicineIntake).status = payloadPending.status ∧
    (⟨50, 7, 2, 15, .pending, 100, 800, none⟩ :
        DailyMedicineIntake).note = payloadPending.note ∧
    (⟨50, 7, 2, 15, .pending, 100, 800, none⟩ :
        DailyMedicineIntake).status_changed_at = 100 :=
  mark_stores_submitted_status dbMed
    ⟨[medA], [schedA], [⟨50, 7, 2, 15, .pending, 100, 800, none⟩]⟩ 7 1
    payloadPending 15 100 50 ⟨50, 7, 2, 15, .pending, 100, 800, none⟩
    (by decide)

/-! ### C9 -/

/-- Counterexample to C9: the handler's read-then-write is not atomic and has
no retry.  In the interleaving where both concurrent first-time calls perform
their lookup before either writes (both see no row), the first insert commits;
the second insert hits the unique constraint and the call ends in the raised
`IntegrityError` — it is not retried as an update, so the losing call fails
permanently (the handler has no `try/except` translating the violation). -/
theorem concurrent_insert_loser_crashes :
    intakeLookup dbMed 7 2 15 = none ∧
    intakeWrite dbMed none 7 schedA 15 payloadTaken 100 50
      = (dbAfterIns, .ok rowIns) ∧
    intakeWrite dbAfterIns none 7 schedA 15 payloadTaken 101 51
      = (dbAfterIns, .error .uniqueViolation) := by
  decide

/-- C9 amended: under the concurrent first-write interleaving (both calls read
before either writes), exactly one row is stored — the winner's — and the
losing call fails with the unique-constraint violation instead of retrying as
an update; the store itself stays consistent. -/
theorem concurrent_loser_unique_violation (db db₁ : DB) (u : Nat)
    (sched : MedicineSchedule) (d : Nat) (payload : MedicineIntakeCreate)
    (now₁ now₂ f₁ f₂ : Nat) (r₁ : DailyMedicineIntake)
    (h0 : rowsFor db sched.id d = [])
    (h1 : intakeWrite db none u sched d payload now₁ f₁ = (db₁, .ok r₁)) :
    intakeWrite db₁ none u sched d payload now₂ f₂
      = (db₁, .error .uniqueViolation) ∧
    rowsFor db₁ sched.id d = [r₁] ∧
    intakeLookup db u sched.id d = none := by
  have hnone : ∀ i ∈ db.intakes,
      ¬(i.schedule_id == sched.id && i.intake_date == d) = true := by
    intro i hi
    have := List.filter_eq_nil_iff.mp h0 i hi
    simpa using this
  have hany : db.intakes.any
      (fun i => i.schedule_id == sched.id && i.intake_date == d) = false := by
    rw [← Bool.not_eq_true, List.any_eq_true]
    rintro ⟨i, hi, hpi⟩
    exact hnone i hi hpi
  simp only [intakeWrite, hany, Bool.false_eq_true, if_false, Prod.mk.injEq,
    Except.ok.injEq] at h1
  obtain ⟨hdb, hrow⟩ := h1
  subst hdb
  subst hrow
  refine ⟨?_, ?_, ?_⟩
  · have hany₁ : (db.intakes ++ [mkRow f₁ u sched d payload now₁]).any
        (fun i => i.schedule_id == sched.id && i.intake_date == d) = true := by
      rw [List.any_eq_true]
      exact ⟨mkRow f₁ u sched d payload now₁, by simp, by simp [mkRow]⟩
    simp [intakeWrite, hany₁]
  · simp only [rowsFor, List.filter_append]
    rw [show db.intakes.filter
        (fun i => i.schedule_id == sched.id && i.intake_date == d) = [] from h0]
    simp [mkRow]
  · rw [intakeLookup, List.find?_eq_none]
    intro i hi
    have hni := hnone i hi
    simp only [Bool.and_eq_true, beq_iff_eq, not_and] at hni
    intro hp
    simp only [Bool.and_eq_true, beq_iff_eq] at hp
    exact hni hp.1.2 hp.2

/-! ### Helper lemmas for the upsert analysis (C1) -/

theorem filter_map_comm {α : Type} (f : α → α) (p : α → Bool)
    (hp : ∀ i, p (f i) = p i) (l : List α) :
    (l.map f).filter p = (l.filter p).map f := by
  induction l with
  | nil => rfl
  | cons x xs ih =>
    cases hx : p x <;>
      simp [List.filter_cons, hp, hx, ih]

theorem find?_map_comm {α : Type} (f : α → α) (p : α → Bool)
    (hp : ∀ i, p (f i) = p i) (l : List α) :
    (l.map f).find? p = (l.find? p).map f := by
  rw [List.find?_map, show p ∘ f = p from funext hp]

theorem filter_eq_singleton_of_mem {α : Type} (l : List α) (p : α → Bool)
    (a : α) (ha : a ∈ l) (hpa : p a = true)
    (hlen : (l.filter p).length ≤ 1) :
    l.filter p = [a] := by
  have hmem : a ∈ l.filter p := List.mem_filter.mpr ⟨ha, hpa⟩
  rcases hfl : l.filter p with _ | ⟨b, rest⟩
  · rw [hfl] at hmem
    cases hmem
  · rw [hfl] at hmem hlen
    have hrest : rest = [] := by
      cases rest with
      | nil => rfl
      | cons c cs => simp at hlen
    subst hrest
    simp only [List.mem_singleton] at hmem
    rw [hmem]

theorem uniqueL_insert (l : List DailyMedicineIntake)
    (row : DailyMedicineIntake)
    (hkey : l.filter (fun i => i.schedule_id == row.schedule_id
      && i.intake_date == row.intake_date) = [])
    (hu : ∀ sid d, (l.filter (fun i => i.schedule_id == sid
      && i.intake_date == d)).length ≤ 1) (sid d : Nat) :
    ((l ++ [row]).filter (fun i => i.schedule_id == sid
      && i.intake_date == d)).length ≤ 1 := by
  rw [List.filter_append, List.length_append]
  by_cases h1 : (row.schedule_id == sid && row.intake_date == d) = true
  · simp only [Bool.and_eq_true, beq_iff_eq] at h1
    obtain ⟨h1a, h1b⟩ := h1
    subst h1a
    subst h1b
    rw [hkey]
    have hle := List.length_filter_le (fun i =>
      i.schedule_id == row.schedule_id && i.intake_date == row.intake_date)
      [row]
    simp only [List.length_singleton] at hle
    simp only [List.length_nil, Nat.zero_add]
    exact hle
  · have hsing : List.filter (fun i => i.schedule_id == sid
        && i.intake_date == d) [row] = [] := by
      simp only [List.filter_cons, List.filter_nil]
      rw [if_neg h1]
    rw [hsing]
    simpa using hu sid d

theorem uniqueL_map (l : List DailyMedicineIntake)
    (f : DailyMedicineIntake → DailyMedicineIntake)
    (hf : ∀ i, (f i).schedule_id = i.schedule_id ∧
      (f i).intake_date = i.intake_date)
    (hu : ∀ sid d, (l.filter (fun i => i.schedule_id == sid
      && i.intake_date == d)).length ≤ 1) (sid d : Nat) :
    ((l.map f).filter (fun i => i.schedule_id == sid
      && i.intake_date == d)).length ≤ 1 := by
  rw [filter_map_comm f _ (fun i => by simp [(hf i).1, (hf i).2]),
    List.length_map]
  exact hu sid d

theorem updFn_keeps_key (u sid d : Nat) (payload : MedicineIntakeCreate)
    (now : Nat) (i : DailyMedicineIntake) :
    (updFn u sid d payload now i).schedule_id = i.schedule_id ∧
    (updFn u sid d payload now i).intake_date = i.intake_date ∧
    (updFn u sid d payload now i).user_id = i.user_id := by
  unfold updFn
  split <;> simp [applyUpd]

theorem markValidate_congr (db db₁ : DB) (u medicine_id : Nat)
    (payload : MedicineIntakeCreate) (today : Nat)
    (hm : db₁.medicines = db.medicines) (hs : db₁.schedules = db.schedules) :
    markValidate db₁ u medicine_id payload today
      = markValidate db u medicine_id payload today := by
  unfold markValidate
  rw [hm, hs]

theorem mark_ok_inv (db db₁ : DB) (u medicine_id : Nat)
    (payload : MedicineIntakeCreate) (today now fresh_id : Nat)
    (r : DailyMedicineIntake)
    (h : mark_medicine_status db (some u) medicine_id payload today now
      fresh_id = (db₁, .ok r)) :
    ∃ med sched d,
      markValidate db u medicine_id payload today = .ok (med, sched, d) ∧
      intakeWrite db (intakeLookup db u sched.id d) u sched d payload now
        fresh_id = (db₁, .ok r) := by
  rcases hv : markValidate db u medicine_id payload today with e | ⟨med, sched, d⟩
  · simp [mark_medicine_status, hv] at h
  · exact ⟨med, sched, d, rfl, by simpa [mark_medicine_status, hv] using h⟩

theorem markValidate_ok_inv (db : DB) (u medicine_id : Nat)
    (payload : MedicineIntakeCreate) (today : Nat) (med : Medicine)
    (sched : MedicineSchedule) (d : Nat)
    (h : markValidate db u medicine_id payload today = .ok (med, sched, d)) :
    sched ∈ db.schedules ∧ sched.user_id = u ∧ sched.medicine_id = med.id ∧
    d = payload.intake_date.getD today := by
  unfold markValidate at h
  split at h
  · simp at h
  next med₀ hm =>
    split at h
    · simp at h
    next sid hs =>
      split at h
      · simp at h
      next sch₀ hf =>
        dsimp only at h
        split at h
        · simp at h
        split at h
        · simp at h
        simp only [Except.ok.injEq, Prod.mk.injEq] at h
        obtain ⟨h1, h2, h3⟩ := h
        subst h1
        subst h2
        subst h3
        have hp := List.find?_some hf
        simp only [Bool.and_eq_true, beq_iff_eq] at hp
        exact ⟨List.mem_of_find?_eq_some hf, hp.1.2, hp.2, rfl⟩

theorem intakeWrite_none_inv (db db₁ : DB) (u : Nat)
    (sched : MedicineSchedule) (d : Nat) (payload : MedicineIntakeCreate)
    (now fresh_id : Nat) (r : DailyMedicineIntake)
    (h : intakeWrite db none u sched d payload now fresh_id = (db₁, .ok r)) :
    r = mkRow fresh_id u sched d payload now ∧
    db.intakes.filter (fun i => i.schedule_id == sched.id
      && i.intake_date == d) = [] ∧
    db₁.intakes = db.intakes ++ [r] ∧
    db₁.medicines = db.medicines ∧ db₁.schedules = db.schedules := by
  by_cases hany : db.intakes.any (fun i => i.schedule_id == sched.id
      && i.intake_date == d) = true
  · simp [intakeWrite, hany] at h
  · simp only [Bool.not_eq_true] at hany
    simp only [intakeWrite, hany, Bool.false_eq_true, if_false,
      Prod.mk.injEq, Except.ok.injEq] at h
    obtain ⟨hdb, hr⟩ := h
    subst hr
    subst hdb
    refine ⟨rfl, ?_, rfl, rfl, rfl⟩
    rw [List.filter_eq_nil_iff]
    exact fun i hi => by simpa using List.any_eq_false.mp hany i hi

theorem intakeWrite_some_inv (db db₁ : DB) (u : Nat)
    (sched : MedicineSchedule) (d : Nat) (payload : MedicineIntakeCreate)
    (now fresh_id : Nat) (r old : DailyMedicineIntake)
    (h : intakeWrite db (some old) u sched d payload now fresh_id
      = (db₁, .ok r)) :
    r = applyUpd payload now old ∧
    db₁.intakes = db.intakes.map (updFn u sched.id d payload now) ∧
    db₁.medicines = db.medicines ∧ db₁.schedules = db.schedules := by
  simp only [intakeWrite, Prod.mk.injEq, Except.ok.injEq] at h
  obtain ⟨hdb, hr⟩ := h
  subst hr
  subst hdb
  exact ⟨rfl, rfl, rfl, rfl⟩

theorem intakeLookup_some_inv (db : DB) (u sid d : Nat)
    (old : DailyMedicineIntake) (h : intakeLookup db u sid d = some old) :
    old ∈ db.intakes ∧ old.user_id = u ∧ old.schedule_id = sid ∧
    old.intake_date = d := by
  have hp := List.find?_some h
  simp only [Bool.and_eq_true, beq_iff_eq] at hp
  exact ⟨List.mem_of_find?_eq_some h, hp.1.1, hp.1.2, hp.2⟩

/-- Witness for C9's amended statement at the concrete race of the
counterexample's store. -/
theorem concurrent_loser_unique_violation_witness :
    intakeWrite dbAfterIns none 7 schedA 15 payloadTaken 101 51
      = (dbAfterIns, .error .uniqueViolation) ∧
    rowsFor dbAfterIns schedA.id 15 = [rowIns] ∧
    intakeLookup dbMed 7 schedA.id 15 = none :=
  concurrent_loser_unique_violation dbMed dbAfterIns 7 schedA 15 payloadTaken
    100 101 50 51 rowIns (by decide) (by decide)

/-! ### C1 -/

/-- C1: the upsert maintains at most one `DailyMedicineIntake` row per
`(schedule, date)`.  Starting from a store satisfying the unique constraint,
two successive successful calls with the same arguments (at times `now₁`,
`now₂`) preserve the constraint and leave exactly one stored row for the key:
after the second call it is `r₂ = applyUpd payload now₂ r₁` — the first
call's row with only `status`, `note` and `status_changed_at` overwritten in
place, so `status_changed_at` advances from `now₁` to `now₂`.  If no row
existed for the key, the first call inserted one with the given status and
note, `status_changed_at = now₁`, and `scheduled_time` snapshotted from the
resolved schedule (owned by the user); if a row existed, the first call
overwrote only the three fields of that row in place.  Medicines and
schedules are never touched. -/
theorem recordIntake_upsert_unique (db db₁ db₂ : DB) (u medicine_id : Nat)
    (payload : MedicineIntakeCreate) (today now₁ now₂ fid₁ fid₂ : Nat)
    (r₁ r₂ : DailyMedicineIntake)
    (hu : IntakeUnique db)
    (h1 : mark_medicine_status db (some u) medicine_id payload today now₁ fid₁
      = (db₁, .ok r₁))
    (h2 : mark_medicine_status db₁ (some u) medicine_id payload today now₂ fid₂
      = (db₂, .ok r₂)) :
    IntakeUnique db₁ ∧ IntakeUnique db₂ ∧
    rowsFor db₁ r₁.schedule_id r₁.intake_date = [r₁] ∧
    rowsFor db₂ r₁.schedule_id r₁.intake_date = [r₂] ∧
    r₂ = applyUpd payload now₂ r₁ ∧
    r₁.status = payload.status ∧ r₁.note = payload.note ∧
    r₁.status_changed_at = now₁ ∧ r₂.status_changed_at = now₂ ∧
    (rowsFor db r₁.schedule_id r₁.intake_date = [] →
      ∃ sched ∈ db.schedules, sched.user_id = u ∧ sched.id = r₁.schedule_id ∧
        r₁ = mkRow fid₁ u sched r₁.intake_date payload now₁) ∧
    (∀ old, rowsFor db r₁.schedule_id r₁.intake_date = [old] →
      old.user_id = u ∧ r₁ = applyUpd payload now₁ old) ∧
    db₂.medicines = db.medicines ∧ db₂.schedules = db.schedules := by
  obtain ⟨med, sched, d, hv, hw⟩ :=
    mark_ok_inv db db₁ u medicine_id payload today now₁ fid₁ r₁ h1
  obtain ⟨hmem, hsu, hsm, hd⟩ :=
    markValidate_ok_inv db u medicine_id payload today med sched d hv
  obtain ⟨med₂, sched₂, d₂, hv₂, hw₂⟩ :=
    mark_ok_inv db₁ db₂ u medicine_id payload today now₂ fid₂ r₂ h2
  rcases hl : intakeLookup db u sched.id d with _ | old <;> rw [hl] at hw
  · -- first call inserted a fresh row
    obtain ⟨hr₁, hkey, hint₁, hmed₁, hsch₁⟩ :=
      intakeWrite_none_inv db db₁ u sched d payload now₁ fid₁ r₁ hw
    subst hr₁
    have hv₁ : markValidate db₁ u medicine_id payload today
        = .ok (med, sched, d) :=
      (markValidate_congr db db₁ u medicine_id payload today hmed₁ hsch₁).trans
        hv
    rw [hv₁] at hv₂
    simp only [Except.ok.injEq, Prod.mk.injEq] at hv₂
    obtain ⟨hm2, hs2, hd2⟩ := hv₂
    subst hm2
    subst hs2
    subst hd2
    have hl₂ : intakeLookup db₁ u sched.id d
        = some (mkRow fid₁ u sched d payload now₁) := by
      unfold intakeLookup at hl ⊢
      rw [hint₁, List.find?_append, hl]
      simp [List.find?_cons, mkRow]
    rw [hl₂] at hw₂
    obtain ⟨hr₂, hint₂, hmed₂, hsch₂⟩ :=
      intakeWrite_some_inv db₁ db₂ u sched d payload now₂ fid₂ r₂ _ hw₂
    subst hr₂
    have hrows₁ : db₁.intakes.filter (fun i => i.schedule_id == sched.id
        && i.intake_date == d) = [mkRow fid₁ u sched d payload now₁] := by
      rw [hint₁, List.filter_append, hkey]
      simp [mkRow]
    have hpres₂ : ∀ i, ((updFn u sched.id d payload now₂ i).schedule_id
        == sched.id && (updFn u sched.id d payload now₂ i).intake_date == d)
          = (i.schedule_id == sched.id && i.intake_date == d) := by
      intro i
      obtain ⟨ha, hb, -⟩ := updFn_keeps_key u sched.id d payload now₂ i
      rw [ha, hb]
    have hrows₂ : db₂.intakes.filter (fun i => i.schedule_id == sched.id
        && i.intake_date == d)
          = [applyUpd payload now₂ (mkRow fid₁ u sched d payload now₁)] := by
      rw [hint₂, filter_map_comm _ _ hpres₂, hrows₁]
      simp [updFn, mkRow]
    have huniq₁ : IntakeUnique db₁ := by
      intro sid dd
      unfold rowsFor
      rw [hint₁]
      exact uniqueL_insert db.intakes _ hkey (fun s t => hu s t) sid dd
    have huniq₂ : IntakeUnique db₂ := by
      intro sid dd
      unfold rowsFor
      rw [hint₂]
      refine uniqueL_map db₁.intakes _ ?_ (fun s t => huniq₁ s t) sid dd
      intro i
      obtain ⟨ha, hb, -⟩ := updFn_keeps_key u sched.id d payload now₂ i
      exact ⟨ha, hb⟩
    refine ⟨huniq₁, huniq₂, hrows₁, hrows₂, rfl, rfl, rfl, rfl, rfl, ?_, ?_,
      hmed₂.trans hmed₁, hsch₂.trans hsch₁⟩
    · intro _
      exact ⟨sched, hmem, hsu, rfl, rfl⟩
    · intro old hold
      simp only [rowsFor, mkRow] at hold
      rw [hkey] at hold
      cases hold
  · -- first call updated an existing row
    obtain ⟨hr₁, hint₁, hmed₁, hsch₁⟩ :=
      intakeWrite_some_inv db db₁ u sched d payload now₁ fid₁ r₁ old hw
    subst hr₁
    obtain ⟨holdmem, holdu, holdsid, holdd⟩ :=
      intakeLookup_some_inv db u sched.id d old hl
    have hpold : (old.schedule_id == sched.id && old.intake_date == d)
        = true := by simp [holdsid, holdd]
    have hrows0 : db.intakes.filter (fun i => i.schedule_id == sched.id
        && i.intake_date == d) = [old] :=
      filter_eq_singleton_of_mem db.intakes _ old holdmem hpold
        (hu sched.id d)
    have hpres₁ : ∀ i, ((updFn u sched.id d payload now₁ i).schedule_id
        == sched.id && (updFn u sched.id d payload now₁ i).intake_date == d)
          = (i.schedule_id == sched.id && i.intake_date == d) := by
      intro i
      obtain ⟨ha, hb, -⟩ := updFn_keeps_key u sched.id d payload now₁ i
      rw [ha, hb]
    have hrows₁ : db₁.intakes.filter (fun i => i.schedule_id == sched.id
        && i.intake_date == d) = [applyUpd payload now₁ old] := by
      rw [hint₁, filter_map_comm _ _ hpres₁, hrows0]
      simp [updFn, holdu, holdsid, holdd]
    have huniq₁ : IntakeUnique db₁ := by
      intro sid dd
      unfold rowsFor
      rw [hint₁]
      refine uniqueL_map db.intakes _ ?_ (fun s t => hu s t) sid dd
      intro i
      obtain ⟨ha, hb, -⟩ := updFn_keeps_key u sched.id d payload now₁ i
      exact ⟨ha, hb⟩
    have hv₁ : markValidate db₁ u medicine_id payload today
        = .ok (med, sched, d) :=
      (markValidate_congr db db₁ u medicine_id payload today hmed₁ hsch₁).trans
        hv
    rw [hv₁] at hv₂
    simp only [Except.ok.injEq, Prod.mk.injEq] at hv₂
    obtain ⟨hm2, hs2, hd2⟩ := hv₂
    subst hm2
    subst hs2
    subst hd2
    have hlookpres : ∀ i, ((updFn u sched.id d payload now₁ i).user_id == u
        && (updFn u sched.id d payload now₁ i).schedule_id == sched.id
        && (updFn u sched.id d payload now₁ i).intake_date == d)
          = (i.user_id == u && i.schedule_id == sched.id
              && i.intake_date == d) := by
      intro i
      obtain ⟨ha, hb, hc⟩ := updFn_keeps_key u sched.id d payload now₁ i
      rw [ha, hb, hc]
    have hl₂ : intakeLookup db₁ u sched.id d
        = some (applyUpd payload now₁ old) := by
      unfold intakeLookup at hl ⊢
      rw [hint₁, find?_map_comm _ _ hlookpres, hl]
      simp [updFn, holdu, holdsid, holdd]
    rw [hl₂] at hw₂
    obtain ⟨hr₂, hint₂, hmed₂, hsch₂⟩ :=
      intakeWrite_some_inv db₁ db₂ u sched d payload now₂ fid₂ r₂ _ hw₂
    subst hr₂
    have hA : (applyUpd payload now₁ old).schedule_id = sched.id := by
      simp [applyUpd, holdsid]
    have hB : (applyUpd payload now₁ old).intake_date = d := by
      simp [applyUpd, holdd]
    have hpres₂ : ∀ i, ((updFn u sched.id d payload now₂ i).schedule_id
        == sched.id && (updFn u sched.id d payload now₂ i).intake_date == d)
          = (i.schedule_id == sched.id && i.intake_date == d) := by
      intro i
      obtain ⟨ha, hb, -⟩ := updFn_keeps_key u sched.id d payload now₂ i
      rw [ha, hb]
    have hrows₂ : db₂.intakes.filter (fun i => i.schedule_id == sched.id
        && i.intake_date == d)
          = [applyUpd payload now₂ (applyUpd payload now₁ old)] := by
      rw [hint₂, filter_map_comm _ _ hpres₂, hrows₁]
      simp [updFn, applyUpd, holdu, holdsid, holdd]
    have huniq₂ : IntakeUnique db₂ := by
      intro sid dd
      unfold rowsFor
      rw [hint₂]
      refine uniqueL_map db₁.intakes _ ?_ (fun s t => huniq₁ s t) sid dd
      intro i
      obtain ⟨ha, hb, -⟩ := updFn_keeps_key u sched.id d payload now₂ i
      exact ⟨ha, hb⟩
    refine ⟨huniq₁, huniq₂, ?_, ?_, rfl, rfl, rfl, rfl, rfl, ?_, ?_,
      hmed₂.trans hmed₁, hsch₂.trans hsch₁⟩
    · simp only [rowsFor]
      rw [hA, hB]
      exact hrows₁
    · simp only [rowsFor]
      rw [hA, hB]
      exact hrows₂
    · intro h0
      simp only [rowsFor] at h0
      rw [hA, hB, hrows0] at h0
      cases h0
    · intro old' hold'
      simp only [rowsFor] at hold'
      rw [hA, hB, hrows0] at hold'
      obtain rfl : old = old' := by
        simpa using hold'
      exact ⟨holdu, rfl⟩

/-- The row after the second call of the witness run: the inserted row with
status/timestamp/note overwritten (timestamp advanced to 101). -/
def rowUpd : DailyMedicineIntake := ⟨50, 7, 2, 15, .taken, 101, 800, none⟩

/-- The store after the witness run's second call. -/
def dbUpd : DB := ⟨[medA], [schedA], [rowUpd]⟩

/-- Witness for C1: the concrete run — insert at time 100, idempotent repeat
at time 101 — applied to the theorem. -/
theorem recordIntake_upsert_unique_witness :
    IntakeUnique dbAfterIns ∧ IntakeUnique dbUpd ∧
    rowsFor dbAfterIns rowIns.schedule_id rowIns.intake_date = [rowIns] ∧
    rowsFor dbUpd rowIns.schedule_id rowIns.intake_date = [rowUpd] ∧
    rowUpd = applyUpd payloadTaken 101 rowIns ∧
    rowIns.status = payloadTaken.status ∧ rowIns.note = payloadTaken.note ∧
    rowIns.status_changed_at = 100 ∧ rowUpd.status_changed_at = 101 ∧
    (rowsFor dbMed rowIns.schedule_id rowIns.intake_date = [] →
      ∃ sched ∈ dbMed.schedules, sched.user_id = 7 ∧
        sched.id = rowIns.schedule_id ∧
        rowIns = mkRow 50 7 sched rowIns.intake_date payloadTaken 100) ∧
    (∀ old, rowsFor dbMed rowIns.schedule_id rowIns.intake_date = [old] →
      old.user_id = 7 ∧ rowIns = applyUpd payloadTaken 100 old) ∧
    dbUpd.medicines = dbMed.medicines ∧ dbUpd.schedules = dbMed.schedules :=
  recordIntake_upsert_unique dbMed dbAfterIns dbUpd 7 1 payloadTaken 15 100
    101 50 51 rowIns rowUpd (fun sid d => by simp [rowsFor, dbMed])
    (by decide) (by decide)

/-! ### Helper lemmas for the read path (C4) -/

theorem length_filter_mono {α : Type} (p q : α → Bool)
    (h : ∀ a, q a = true → p a = true) (l : List α) :
    (l.filter q).length ≤ (l.filter p).length := by
  induction l with
  | nil => simp
  | cons x xs ih =>
    cases hq : q x
    · cases hp : p x
      · simp only [List.filter_cons, hq, hp, Bool.false_eq_true, if_false]
        exact ih
      · simp only [List.filter_cons, hq, hp, if_true, Bool.false_eq_true,
          if_false, List.length_cons]
        exact Nat.le_succ_of_le ih
    · have hp := h x hq
      simp only [List.filter_cons, hq, hp, if_true, List.length_cons]
      exact Nat.succ_le_succ ih

theorem getLast?_filter_eq_find? {α : Type} (p : α → Bool) (l : List α)
    (h : (l.filter p).length ≤ 1) :
    (l.filter p).getLast? = l.find? p := by
  induction l with
  | nil => rfl
  | cons x xs ih =>
    cases px : p x
    · rw [List.filter_cons_of_neg (by simp [px]),
        List.find?_cons_of_neg xs (by simp [px])]
      exact ih (by rwa [List.filter_cons_of_neg (by simp [px])] at h)
    · rw [List.filter_cons_of_pos px] at h ⊢
      rw [List.find?_cons_of_pos xs px]
      have hnil : xs.filter p = [] := by
        rw [← List.length_eq_zero]
        simp only [List.length_cons] at h
        omega
      rw [hnil]
      rfl

theorem dictLast_eq_lookup (db : DB) (u today sid : Nat) (ids : List Nat)
    (hu : IntakeUnique db) (hsid : ids.contains sid = true) :
    dictLast (db.intakes.filter (fun i => i.user_id == u
      && ids.contains i.schedule_id && i.intake_date == today)) sid
      = intakeLookup db u sid today := by
  unfold dictLast
  rw [List.filter_filter]
  have hmemsid : sid ∈ ids := by simpa using hsid
  have hcong : ∀ i ∈ db.intakes,
      ((i.schedule_id == sid) && (i.user_id == u
        && ids.contains i.schedule_id && i.intake_date == today))
        = (i.user_id == u && i.schedule_id == sid
            && i.intake_date == today) := by
    intro i _
    cases hq : (i.schedule_id == sid)
    · simp [hq]
    · have heq : i.schedule_id = sid := eq_of_beq hq
      have hcmem : i.schedule_id ∈ ids := by
        rw [heq]
        exact hmemsid
      simp [hq, hcmem]
  rw [List.filter_congr hcong]
  exact getLast?_filter_eq_find? _ db.intakes
    (le_trans
      (length_filter_mono
        (fun i => i.schedule_id == sid && i.intake_date == today)
        (fun i => i.user_id == u && i.schedule_id == sid
          && i.intake_date == today)
        (fun i hi => by
          simp only [Bool.and_eq_true] at hi ⊢
          exact ⟨hi.1.2, hi.2⟩) db.intakes)
      (hu sid today))

/-! ### C4 -/

/-- C4: `get_medicines` attaches to every schedule of every returned medicine
exactly the spec's derived status: the status of the existing
`DailyMedicineIntake` row for `(user, schedule, today)` when one exists, and
PENDING otherwise.  The source path executes only SELECTs (the attachment is
a `setattr` on loaded objects, not a column write), so it is embedded as a
pure function of the store: it cannot create or modify intake rows, which the
type of `get_medicines` makes structural. -/
theorem get_medicines_today_status (db : DB) (u today : Nat)
    (hu : IntakeUnique db) (m : Medicine)
    (scheds : List (MedicineSchedule × IntakeStatus))
    (hm : (m, scheds) ∈ get_medicines db u today)
    (s : MedicineSchedule) (st : IntakeStatus) (hs : (s, st) ∈ scheds) :
    st = todayStatus db u s.id today := by
  simp only [get_medicines, List.mem_map] at hm
  obtain ⟨m₀, hm₀, hpair⟩ := hm
  injection hpair with hm1 hm2
  subst hm1
  subst hm2
  simp only [List.mem_map] at hs
  obtain ⟨s₀, hs₀, hpair₂⟩ := hs
  injection hpair₂ with hs1 hs2
  subst hs1
  subst hs2
  have hsid : ((db.medicines.filter (fun m => m.user_id == u)).flatMap
      (fun m => (schedulesOf db m).map (fun s => s.id))).contains s₀.id
        = true := by
    have : s₀.id ∈ (db.medicines.filter (fun m => m.user_id == u)).flatMap
        (fun m => (schedulesOf db m).map (fun s => s.id)) :=
      List.mem_flatMap.mpr ⟨m₀, hm₀, List.mem_map.mpr ⟨s₀, hs₀, rfl⟩⟩
    simpa using this
  rw [dictLast_eq_lookup db u today s₀.id _ hu hsid]
  rfl

/-- A second schedule of `medA`, with no intake row. -/
def schedB : MedicineSchedule := ⟨3, 1, 7, 2000⟩

/-- A store where `schedA` has a TAKEN row for day 15 and `schedB` has none. -/
def dbWit : DB := ⟨[medA], [schedA, schedB], [rowIns]⟩

/-- Witness for C4: in the concrete listing for day 15, the schedule with a
stored row carries that row's status (TAKEN, which `todayStatus` also
computes), while the row-less schedule would carry PENDING. -/
theorem get_medicines_today_status_witness :
    IntakeStatus.taken = todayStatus dbWit 7 schedA.id 15 :=
  get_medicines_today_status dbWit 7 15
    (fun sid d => le_trans (List.length_filter_le _ dbWit.intakes) (by decide))
    medA [(schedA, .taken), (schedB, .pending)] (by decide) schedA .taken
    (by decide)

end HeartCoach
